import Mathlib

/-!
Shallow embedding of the `deployer` package of grs/mcp-deployment-example
(files `pkg/deployer/deployer.go`, `pkg/deployer/simple_deployer.go`, and the
port-prompt step of `cmd/wizard/main.go`).

Go maps are modelled as association lists with unique keys (the invariant any
Go map maintains); `mapGet`/`mapSet` model Go map lookup and assignment.
Manifest construction (`createDeployment`, `createService`, `mergeLabels`,
`getResources`) is pure in the source apart from the final API submission, so
it is embedded as pure functions returning the manifest that the code hands to
the cluster API.  The API collaborator (list/get/delete primitives) is passed
in as explicit functions returning `Except`/`Option` errors, and the calls the
code makes are recorded in a trace where a claim is about sequencing.
A small heap model (`GoMapHeap`) makes Go's map aliasing explicit for the
frame/no-mutation claim about `mergeLabels`.
-/

namespace MCPDeploy

/-! ## Go map model (association list with unique keys) -/

abbrev LabelMap := List (String × String)

/-- Go map lookup `m[k]` (with `ok` as `Option`). -/
def mapGet (m : LabelMap) (k : String) : Option String :=
  (m.find? (fun p => p.1 == k)).map Prod.snd

/-- Go map assignment `m[k] = v`: overwrite in place when the key is present,
otherwise add the binding. -/
def mapSet (m : LabelMap) (k v : String) : LabelMap :=
  if m.any (fun p => p.1 == k) then
    m.map (fun p => if p.1 == k then (k, v) else p)
  else
    m ++ [(k, v)]

/-- The `for k, v := range userLabels` copy loop of `mergeLabels`, writing every
entry into a map that starts empty. -/
def copyMap (m : LabelMap) : LabelMap :=
  m.foldl (fun acc p => mapSet acc p.1 p.2) []

/-! ## Data model (`deployer.go` and the used parts of the k8s API types) -/

/-- `MCPServerLabel`, the label used to identify MCP server deployments. -/
def MCPServerLabel : String := "mcp.opendatahub.io/mcp-server"

structure SecretKeySelector where
  name : String
  key : String
  deriving Repr, DecidableEq

structure EnvVarSource where
  secretKeyRef : Option SecretKeySelector
  deriving Repr, DecidableEq

structure EnvVar where
  name : String
  value : String
  valueFrom : Option EnvVarSource
  deriving Repr, DecidableEq

/-- `corev1.ResourceRequirements`, with quantities kept as opaque strings. -/
structure ResourceRequirements where
  limits : List (String × String)
  requests : List (String × String)
  deriving Repr, DecidableEq

structure SecretMount where
  secretName : String
  mountPath : String
  deriving Repr, DecidableEq

structure MCPServerSpec where
  name : String
  nspace : String
  image : String
  port : Int
  envVars : List EnvVar
  args : List String
  secretMounts : List SecretMount
  serviceAccount : String
  labels : LabelMap
  annotations : LabelMap
  resources : Option ResourceRequirements
  deriving Repr, DecidableEq

structure ObjectMeta where
  name : String
  nspace : String
  labels : LabelMap
  annotations : LabelMap
  deriving Repr, DecidableEq

structure SecretVolumeSource where
  secretName : String
  deriving Repr, DecidableEq

structure VolumeSource where
  secret : Option SecretVolumeSource
  deriving Repr, DecidableEq

structure Volume where
  name : String
  volumeSource : VolumeSource
  deriving Repr, DecidableEq

structure VolumeMount where
  name : String
  mountPath : String
  readOnly : Bool
  deriving Repr, DecidableEq

structure ContainerPort where
  name : String
  containerPort : Int
  protocol : String
  deriving Repr, DecidableEq

structure Container where
  name : String
  image : String
  ports : List ContainerPort
  env : List EnvVar
  args : List String
  volumeMounts : List VolumeMount
  resources : ResourceRequirements
  deriving Repr, DecidableEq

structure PodSpec where
  serviceAccountName : String
  containers : List Container
  volumes : List Volume
  deriving Repr, DecidableEq

structure PodTemplateSpec where
  metadata : ObjectMeta
  spec : PodSpec
  deriving Repr, DecidableEq

structure LabelSelector where
  matchLabels : LabelMap
  deriving Repr, DecidableEq

structure DeploymentCondition where
  type : String
  status : String
  message : String
  deriving Repr, DecidableEq

structure DeploymentStatus where
  availableReplicas : Int
  conditions : List DeploymentCondition
  deriving Repr, DecidableEq

structure DeploymentSpec where
  replicas : Int
  selector : LabelSelector
  template : PodTemplateSpec
  deriving Repr, DecidableEq

structure Deployment where
  metadata : ObjectMeta
  spec : DeploymentSpec
  status : DeploymentStatus
  deriving Repr, DecidableEq

structure ServicePort where
  name : String
  port : Int
  targetPort : Int
  protocol : String
  deriving Repr, DecidableEq

structure ServiceSpec where
  selector : LabelMap
  ports : List ServicePort
  type : String
  deriving Repr, DecidableEq

structure Service where
  metadata : ObjectMeta
  spec : ServiceSpec
  deriving Repr, DecidableEq

structure MCPServerStatus where
  name : String
  nspace : String
  image : String
  available : Bool
  endpoint : String
  labels : LabelMap
  annotations : LabelMap
  conditions : List String
  deriving Repr, DecidableEq

/-! ## Spec-to-manifest translation (`simple_deployer.go`) -/

/-- `mergeLabels`: copy the user labels into a fresh map, then set the
required MCP server label. -/
def mergeLabels (userLabels : LabelMap) : LabelMap :=
  mapSet (copyMap userLabels) MCPServerLabel "true"

/-- `getResources`: the resource requirements, or an empty one if nil. -/
def getResources (resources : Option ResourceRequirements) : ResourceRequirements :=
  match resources with
  | some r => r
  | none => { limits := [], requests := [] }

/-- The manifest built by `createDeployment` (the Deployment handed to the
cluster API; the `Create` call itself is the collaborator's). -/
def createDeployment (spec : MCPServerSpec) : Deployment :=
  let labels := mergeLabels spec.labels
  let replicas : Int := 1
  let volumes : List Volume := spec.secretMounts.enum.map (fun p =>
    { name := "secret-" ++ toString p.1,
      volumeSource := { secret := some { secretName := p.2.secretName } } })
  let volumeMounts : List VolumeMount := spec.secretMounts.enum.map (fun p =>
    { name := "secret-" ++ toString p.1,
      mountPath := p.2.mountPath,
      readOnly := true })
  { metadata := { name := spec.name, nspace := spec.nspace,
                  labels := labels, annotations := spec.annotations },
    spec := { replicas := replicas,
              selector := { matchLabels := labels },
              template := { metadata := { name := "", nspace := "",
                                          labels := labels,
                                          annotations := spec.annotations },
                            spec := { serviceAccountName := spec.serviceAccount,
                                      containers := [{ name := "mcp-server",
                                                       image := spec.image,
                                                       ports := [{ name := "mcp",
                                                                   containerPort := spec.port,
                                                                   protocol := "TCP" }],
                                                       env := spec.envVars,
                                                       args := spec.args,
                                                       volumeMounts := volumeMounts,
                                                       resources := getResources spec.resources }],
                                      volumes := volumes } } },
    status := { availableReplicas := 0, conditions := [] } }

/-- The manifest built by `createService`. -/
def createService (spec : MCPServerSpec) : Service :=
  let labels := mergeLabels spec.labels
  { metadata := { name := spec.name, nspace := spec.nspace,
                  labels := labels, annotations := spec.annotations },
    spec := { selector := labels,
              ports := [{ name := "mcp",
                          port := spec.port,
                          targetPort := spec.port,
                          protocol := "TCP" }],
              type := "ClusterIP" } }

/-- `DeployMCPServer` submits the two manifests in order; its pure content is
the manifest pair. -/
def DeployMCPServer (spec : MCPServerSpec) : Deployment × Service :=
  (createDeployment spec, createService spec)

/-! ## Status projection (`ListMCPServers`)

The cluster API collaborator appears as the result of the filtered deployment
list (`listDeps`) and the by-name service lookup (`getService`).  The boolean
returned next to the status records whether the service lookup was invoked for
that deployment. -/

/-- The body of the `for _, deployment := range deployments.Items` loop of
`ListMCPServers`: one `MCPServerStatus` per deployment, plus whether the
service `Get` was called. -/
def projectStatus (getService : String → Except String Service)
    (d : Deployment) : MCPServerStatus × Bool :=
  let available : Bool := decide (0 < d.status.availableReplicas)
  let image : String :=
    match d.spec.template.spec.containers with
    | [] => ""
    | c :: _ => c.image
  let ep : String × Bool :=
    if available then
      (match getService d.metadata.name with
       | .ok service =>
         match service.spec.ports with
         | [] => ""
         | p :: _ => service.metadata.name ++ ":" ++ toString p.port
       | .error _ => "", true)
    else ("", false)
  ({ name := d.metadata.name,
     nspace := d.metadata.nspace,
     image := image,
     available := available,
     endpoint := ep.1,
     labels := d.metadata.labels,
     annotations := d.metadata.annotations,
     conditions := d.status.conditions.map (fun c =>
       c.type ++ ": " ++ c.status ++ " - " ++ c.message) },
   ep.2)

/-- The label selector string `ListMCPServers` sends to the list primitive. -/
def listSelector : String := MCPServerLabel ++ "=true"

/-- `ListMCPServers`: propagate a failure of the upstream filtered list with
context; otherwise project every returned deployment. -/
def ListMCPServers (listDeps : Except String (List Deployment))
    (getService : String → Except String Service) :
    Except String (List MCPServerStatus) :=
  match listDeps with
  | .error e => .error ("failed to list deployments: " ++ e)
  | .ok ds => .ok (ds.map (fun d => (projectStatus getService d).1))

/-! ## Deletion (`DeleteMCPServer`), with an explicit call trace -/

inductive ApiCall where
  | delDeployment (nspace name : String)
  | delService (nspace name : String)
  deriving Repr, DecidableEq

/-- `DeleteMCPServer`: delete the deployment, then the service, stopping at the
first failure.  The delete primitives return `some err` on failure; the list of
`ApiCall`s made is returned alongside the result. -/
def DeleteMCPServer (delDeployment delService : String → String → Option String)
    (nspace name : String) : Option String × List ApiCall :=
  match delDeployment nspace name with
  | some e => (some ("failed to delete deployment: " ++ e),
               [ApiCall.delDeployment nspace name])
  | none =>
    match delService nspace name with
    | some e => (some ("failed to delete service: " ++ e),
                 [ApiCall.delDeployment nspace name, ApiCall.delService nspace name])
    | none => (none,
               [ApiCall.delDeployment nspace name, ApiCall.delService nspace name])

/-! ## Wizard port prompt (`cmd/wizard/main.go`, `deployServer`)

`strconv.ParseInt(portStr, 10, 32)` modelled for base 10 and 32-bit range:
optional sign followed by at least one decimal digit, result within the int32
range; the wizard aborts on a parse error, uses 8080 on empty input. -/

def digitVal (c : Char) : Option Nat :=
  if '0' ≤ c ∧ c ≤ '9' then some (c.toNat - '0'.toNat) else none

def parseDigitsAux : List Char → Nat → Option Nat
  | [], acc => some acc
  | c :: cs, acc =>
    match digitVal c with
    | some d => parseDigitsAux cs (acc * 10 + d)
    | none => none

/-- `strconv.ParseInt(s, 10, 32)`: `none` on a syntax or range error. -/
def goParseInt32 (s : String) : Option Int :=
  match s.data with
  | [] => none
  | c :: cs =>
    let signed : Bool × List Char :=
      if c = '+' then (false, cs)
      else if c = '-' then (true, cs)
      else (false, c :: cs)
    match signed.2 with
    | [] => none
    | ds =>
      match parseDigitsAux ds 0 with
      | none => none
      | some n =>
        let v : Int := if signed.1 then -(n : Int) else (n : Int)
        if -2147483648 ≤ v ∧ v ≤ 2147483647 then some v else none

/-- The port step of `deployServer`: empty input defaults to 8080, otherwise
the input must parse as an int32 (`none` aborts the wizard). -/
def wizardPort (portStr : String) : Option Int :=
  if portStr = "" then some 8080 else goParseInt32 portStr

/-! ## Heap model of Go maps, for the no-mutation (frame) property

A `GoMapHeap` holds the contents of every live Go map; a map value is an index
into it.  `mergeLabels` in the source allocates a fresh map (`make`) and only
ever writes to that fresh map, which is what `mergeLabelsH` makes explicit. -/

structure GoMapHeap where
  cells : List LabelMap
  deriving Repr, DecidableEq

abbrev MapRef := Nat

def readMap (h : GoMapHeap) (r : MapRef) : LabelMap :=
  h.cells.getD r []

/-- `make(map[string]string)`: a fresh empty map. -/
def allocMap (h : GoMapHeap) : GoMapHeap × MapRef :=
  ({ cells := h.cells ++ [[]] }, h.cells.length)

/-- `m[k] = v` on the map behind reference `r`. -/
def writeKey (h : GoMapHeap) (r : MapRef) (k v : String) : GoMapHeap :=
  { cells := h.cells.set r (mapSet (readMap h r) k v) }

/-- `mergeLabels` with Go's map aliasing explicit: allocate a fresh map, copy
the caller's entries into it, then set the required label — all writes target
the fresh map. -/
def mergeLabelsH (h : GoMapHeap) (userRef : MapRef) : GoMapHeap × MapRef :=
  let alloc := allocMap h
  let copied := (readMap h userRef).foldl
    (fun acc p => writeKey acc alloc.2 p.1 p.2) alloc.1
  (writeKey copied alloc.2 MCPServerLabel "true", alloc.2)

/-! ## Lemmas about the Go map model -/

theorem mapSet_of_any {m : LabelMap} {k : String} (v : String)
    (h : m.any (fun p => p.1 == k) = true) :
    mapSet m k v = m.map (fun p => if p.1 == k then (k, v) else p) := by
  simp [mapSet, h]

theorem mapSet_of_not_any {m : LabelMap} {k : String} (v : String)
    (h : ¬ m.any (fun p => p.1 == k) = true) :
    mapSet m k v = m ++ [(k, v)] := by
  simp only [mapSet, if_neg h]

theorem mapGet_nil (k : String) : mapGet [] k = none := rfl

theorem mapGet_cons (x : String × String) (l : LabelMap) (k : String) :
    mapGet (x :: l) k = if x.1 = k then some x.2 else mapGet l k := by
  by_cases h : x.1 = k
  · simp only [mapGet]
    rw [List.find?_cons_of_pos _ (by simp [h])]
    simp [h]
  · simp only [mapGet]
    rw [List.find?_cons_of_neg _ (by simp [h])]
    simp [h]

theorem mapGet_mapSet_self (m : LabelMap) (k v : String) :
    mapGet (mapSet m k v) k = some v := by
  induction m with
  | nil => simp [mapSet, mapGet_cons, mapGet_nil]
  | cons p t ih =>
    by_cases hp : p.1 = k
    · rw [mapSet_of_any v (by simp [hp]), List.map_cons]
      simp [hp, mapGet_cons]
    · by_cases ht : t.any (fun q => q.1 == k) = true
      · rw [mapSet_of_any v (by simp [List.any_cons, ht]), List.map_cons]
        have hfp : (if p.1 == k then (k, v) else p) = p := by simp [hp]
        rw [hfp, mapGet_cons, if_neg hp, ← mapSet_of_any v ht]
        exact ih
      · rw [mapSet_of_not_any v (by simp [List.any_cons, hp, ht]), List.cons_append,
          mapGet_cons, if_neg hp, ← mapSet_of_not_any v ht]
        exact ih

theorem mapGet_mapSet_ne (m : LabelMap) (k v k' : String) (hne : k' ≠ k) :
    mapGet (mapSet m k v) k' = mapGet m k' := by
  induction m with
  | nil =>
    rw [mapSet_of_not_any v (by simp)]
    simp [mapGet_cons, mapGet_nil, Ne.symm hne]
  | cons p t ih =>
    by_cases hp : p.1 = k
    · rw [mapSet_of_any v (by simp [hp]), List.map_cons]
      have hfp : (if p.1 == k then (k, v) else p) = (k, v) := by simp [hp]
      by_cases ht : t.any (fun q => q.1 == k) = true
      · rw [mapSet_of_any v ht] at ih
        rw [hfp, mapGet_cons, if_neg (Ne.symm hne), mapGet_cons, hp, if_neg (Ne.symm hne)]
        exact ih
      · rw [mapSet_of_not_any v ht] at ih
        rw [hfp, mapGet_cons, if_neg (Ne.symm hne)]
        have hnot : ∀ q ∈ t, ¬ q.1 = k := by
          intro q hq hqk
          exact ht (List.any_eq_true.mpr ⟨q, hq, by simp [hqk]⟩)
        have hmap : t.map (fun q => if q.1 == k then (k, v) else q) = t := by
          conv_rhs => rw [← List.map_id t]
          exact List.map_congr_left (fun q hq => by simp [hnot q hq])
        rw [hmap, mapGet_cons, hp, if_neg (Ne.symm hne)]
    · by_cases ht : t.any (fun q => q.1 == k) = true
      · rw [mapSet_of_any v (by simp [List.any_cons, ht]), List.map_cons]
        have hfp : (if p.1 == k then (k, v) else p) = p := by simp [hp]
        rw [mapSet_of_any v ht] at ih
        rw [hfp, mapGet_cons, mapGet_cons]
        by_cases hp' : p.1 = k'
        · simp [hp']
        · rw [if_neg hp', if_neg hp']
          exact ih
      · rw [mapSet_of_not_any v (by simp [List.any_cons, hp, ht]), List.cons_append,
          mapGet_cons, mapGet_cons]
        rw [mapSet_of_not_any v ht] at ih
        by_cases hp' : p.1 = k'
        · simp [hp']
        · rw [if_neg hp', if_neg hp']
          exact ih

theorem copyMap_go (u : LabelMap) : ∀ acc : LabelMap,
    ((acc ++ u).map Prod.fst).Nodup →
    u.foldl (fun a p => mapSet a p.1 p.2) acc = acc ++ u := by
  induction u with
  | nil => intro acc _; simp
  | cons p t ih =>
    intro acc h
    have hmem : p.1 ∉ acc.map Prod.fst := by
      intro hmem
      rw [List.map_append] at h
      exact (List.nodup_append.mp h).2.2 hmem (by simp)
    have hk : ¬ acc.any (fun q => q.1 == p.1) = true := by
      simp only [List.any_eq_true, beq_iff_eq]
      rintro ⟨q, hq, hq1⟩
      exact hmem (List.mem_map.mpr ⟨q, hq, hq1⟩)
    have hset : mapSet acc p.1 p.2 = acc ++ [p] := by
      rw [mapSet_of_not_any _ hk]
    rw [List.foldl_cons, hset, ih (acc ++ [p]) (by simpa using h)]
    simp

theorem copyMap_eq_self {u : LabelMap} (h : (u.map Prod.fst).Nodup) :
    copyMap u = u := by
  simpa using copyMap_go u [] (by simpa using h)

theorem mergeLabels_eq_mapSet {u : LabelMap} (h : (u.map Prod.fst).Nodup) :
    mergeLabels u = mapSet u MCPServerLabel "true" := by
  rw [mergeLabels, copyMap_eq_self h]

theorem mapGet_mergeLabels_self (u : LabelMap) :
    mapGet (mergeLabels u) MCPServerLabel = some "true" :=
  mapGet_mapSet_self ..

theorem mapGet_mergeLabels_ne {u : LabelMap} (h : (u.map Prod.fst).Nodup)
    (k : String) (hne : k ≠ MCPServerLabel) :
    mapGet (mergeLabels u) k = mapGet u k := by
  rw [mergeLabels_eq_mapSet h]
  exact mapGet_mapSet_ne u MCPServerLabel "true" k hne

/-! ## Lemmas about the heap model -/

theorem readMap_eq (h : GoMapHeap) (r : MapRef) :
    readMap h r = (h.cells[r]?).getD [] := by
  rw [readMap, List.getD_eq_getElem?_getD]

theorem writeKey_length (h : GoMapHeap) (r : MapRef) (k v : String) :
    (writeKey h r k v).cells.length = h.cells.length := by
  simp [writeKey]

theorem readMap_writeKey_same (h : GoMapHeap) (r : MapRef) (k v : String)
    (hr : r < h.cells.length) :
    readMap (writeKey h r k v) r = mapSet (readMap h r) k v := by
  rw [readMap_eq, writeKey]
  simp [List.getElem?_set, hr]

theorem readMap_writeKey_ne (h : GoMapHeap) (r r2 : MapRef) (k v : String)
    (hne : r2 ≠ r) :
    readMap (writeKey h r k v) r2 = readMap h r2 := by
  rw [readMap_eq, readMap_eq, writeKey]
  simp [List.getElem?_set, Ne.symm hne]

theorem foldl_writeKey (l : List (String × String)) :
    ∀ h : GoMapHeap, ∀ r : MapRef, r < h.cells.length →
    ((l.foldl (fun acc p => writeKey acc r p.1 p.2) h).cells.length = h.cells.length) ∧
    (∀ r2, r2 ≠ r →
      readMap (l.foldl (fun acc p => writeKey acc r p.1 p.2) h) r2 = readMap h r2) ∧
    readMap (l.foldl (fun acc p => writeKey acc r p.1 p.2) h) r
      = l.foldl (fun a p => mapSet a p.1 p.2) (readMap h r) := by
  induction l with
  | nil => exact fun h r _ => ⟨rfl, fun _ _ => rfl, rfl⟩
  | cons p t ih =>
    intro h r hr
    have hr' : r < (writeKey h r p.1 p.2).cells.length := by
      rw [writeKey_length]; exact hr
    obtain ⟨h1, h2, h3⟩ := ih (writeKey h r p.1 p.2) r hr'
    refine ⟨by rw [List.foldl_cons, h1, writeKey_length], ?_, ?_⟩
    · intro r2 hne
      rw [List.foldl_cons, h2 r2 hne, readMap_writeKey_ne h r r2 p.1 p.2 hne]
    · rw [List.foldl_cons, h3, readMap_writeKey_same h r p.1 p.2 hr, List.foldl_cons]

theorem readMap_allocMap_old (h : GoMapHeap) (r : MapRef) (hr : r < h.cells.length) :
    readMap (allocMap h).1 r = readMap h r := by
  rw [readMap_eq, readMap_eq, allocMap]
  simp [List.getElem?_append, hr]

theorem readMap_allocMap_fresh (h : GoMapHeap) :
    readMap (allocMap h).1 (allocMap h).2 = [] := by
  rw [readMap_eq, allocMap]
  simp

/-- Full behaviour of the heap-level `mergeLabels`: it returns a fresh
reference holding exactly `mergeLabels` of the caller's map, and leaves every
pre-existing map (the caller's included) untouched. -/
theorem mergeLabelsH_spec (h : GoMapHeap) (userRef : MapRef) :
    (mergeLabelsH h userRef).2 = h.cells.length ∧
    (mergeLabelsH h userRef).1.cells.length = h.cells.length + 1 ∧
    (∀ r2, r2 < h.cells.length →
      readMap (mergeLabelsH h userRef).1 r2 = readMap h r2) ∧
    readMap (mergeLabelsH h userRef).1 (mergeLabelsH h userRef).2
      = mergeLabels (readMap h userRef) := by
  have halloc : (allocMap h).1.cells.length = h.cells.length + 1 := by
    simp [allocMap]
  have hfreshlt : (allocMap h).2 < (allocMap h).1.cells.length := by
    rw [halloc, allocMap]
    exact Nat.lt_succ_self _
  obtain ⟨hlen, hother, hsame⟩ :=
    foldl_writeKey (readMap h userRef) (allocMap h).1 (allocMap h).2 hfreshlt
  set copied := (readMap h userRef).foldl
    (fun acc p => writeKey acc (allocMap h).2 p.1 p.2) (allocMap h).1 with hcopied
  have hfreshlt2 : (allocMap h).2 < copied.cells.length := by
    rw [hlen]; exact hfreshlt
  refine ⟨rfl, ?_, ?_, ?_⟩
  · show (writeKey copied (allocMap h).2 MCPServerLabel "true").cells.length
      = h.cells.length + 1
    rw [writeKey_length, hlen, halloc]
  · intro r2 hr2
    have hne : r2 ≠ (allocMap h).2 := Nat.ne_of_lt hr2
    show readMap (writeKey copied (allocMap h).2 MCPServerLabel "true") r2
      = readMap h r2
    rw [readMap_writeKey_ne copied (allocMap h).2 r2 MCPServerLabel "true" hne,
      hother r2 hne, readMap_allocMap_old h r2 hr2]
  · show readMap (writeKey copied (allocMap h).2 MCPServerLabel "true") (allocMap h).2
      = mergeLabels (readMap h userRef)
    rw [readMap_writeKey_same copied (allocMap h).2 MCPServerLabel "true" hfreshlt2,
      hsame, readMap_allocMap_fresh h]
    rfl

/-! ## Concrete inputs used by the witnesses -/

def specA : MCPServerSpec :=
  { name := "s1", nspace := "ns1", image := "img:v1", port := 9090,
    envVars := [], args := ["--x"],
    secretMounts := [{ secretName := "sec1", mountPath := "/a" }],
    serviceAccount := "sa",
    labels := [(MCPServerLabel, "false"), ("app", "x")],
    annotations := [("note", "y")],
    resources := none }

def specB : MCPServerSpec := { specA with port := 8080 }

def svcA : Service :=
  { metadata := { name := "svc-a", nspace := "ns1", labels := [], annotations := [] },
    spec := { selector := [],
              ports := [{ name := "mcp", port := 9000, targetPort := 9000, protocol := "TCP" }],
              type := "ClusterIP" } }

def ctrA : Container :=
  { name := "mcp-server", image := "img:v1", ports := [], env := [], args := [],
    volumeMounts := [], resources := { limits := [], requests := [] } }

def depZero : Deployment :=
  { metadata := { name := "svc-a", nspace := "ns1", labels := [("k", "v")],
                  annotations := [("a", "b")] },
    spec := { replicas := 1, selector := { matchLabels := [] },
              template := { metadata := { name := "", nspace := "", labels := [],
                                          annotations := [] },
                            spec := { serviceAccountName := "", containers := [ctrA],
                                      volumes := [] } } },
    status := { availableReplicas := 0, conditions := [] } }

def depOne : Deployment :=
  { depZero with
    status := { availableReplicas := 1,
                conditions := [{ type := "Available", status := "True",
                                 message := "ok" }] } }

/-! ## The claims -/

/-- C1: for every `MCPServerSpec`, the Deployment built by `createDeployment`
carries `mergeLabels spec.Labels` as its label map; that map always holds
`mcp.opendatahub.io/mcp-server = "true"` (a caller-supplied value for that key
is discarded), and every entry of `spec.Labels` at any other key is copied
verbatim. -/
theorem c1_mandatory_label_overwrite (spec : MCPServerSpec)
    (hnd : (spec.labels.map Prod.fst).Nodup) :
    (createDeployment spec).metadata.labels = mergeLabels spec.labels ∧
    mapGet (createDeployment spec).metadata.labels MCPServerLabel = some "true" ∧
    (∀ k, k ≠ MCPServerLabel →
      mapGet (createDeployment spec).metadata.labels k = mapGet spec.labels k) := by
  refine ⟨rfl, ?_, ?_⟩
  · exact mapGet_mergeLabels_self spec.labels
  · intro k hk
    exact mapGet_mergeLabels_ne hnd k hk

theorem c1_mandatory_label_overwrite_witness :
    mapGet (createDeployment specA).metadata.labels MCPServerLabel = some "true" ∧
    mapGet specA.labels MCPServerLabel = some "false" ∧
    mapGet (createDeployment specA).metadata.labels "app" = mapGet specA.labels "app" :=
  ⟨(c1_mandatory_label_overwrite specA (by decide)).2.1,
   by decide,
   (c1_mandatory_label_overwrite specA (by decide)).2.2 "app" (by decide)⟩

/-- C2: `DeleteMCPServer` deletes the Deployment first and the Service second;
a failing workload delete returns the wrapped error with the service-delete
primitive never invoked (the call trace holds only the deployment delete), and
a failing service delete after a successful workload delete returns an error
with the workload delete already performed. -/
theorem c2_delete_sequencing
    (delDeployment delService : String → String → Option String)
    (nspace name : String) :
    (∀ e, delDeployment nspace name = some e →
      DeleteMCPServer delDeployment delService nspace name
        = (some ("failed to delete deployment: " ++ e),
           [ApiCall.delDeployment nspace name])) ∧
    (delDeployment nspace name = none → ∀ e, delService nspace name = some e →
      DeleteMCPServer delDeployment delService nspace name
        = (some ("failed to delete service: " ++ e),
           [ApiCall.delDeployment nspace name, ApiCall.delService nspace name])) := by
  constructor
  · intro e he
    simp [DeleteMCPServer, he]
  · intro hd e he
    simp [DeleteMCPServer, hd, he]

theorem c2_delete_sequencing_witness :
    DeleteMCPServer (fun _ _ => some "boom") (fun _ _ => some "svc-boom") "ns1" "s1"
      = (some ("failed to delete deployment: " ++ "boom"),
         [ApiCall.delDeployment "ns1" "s1"]) ∧
    DeleteMCPServer (fun _ _ => none) (fun _ _ => some "svc-boom") "ns1" "s1"
      = (some ("failed to delete service: " ++ "svc-boom"),
         [ApiCall.delDeployment "ns1" "s1", ApiCall.delService "ns1" "s1"]) :=
  ⟨(c2_delete_sequencing (fun _ _ => some "boom") (fun _ _ => some "svc-boom")
      "ns1" "s1").1 "boom" rfl,
   (c2_delete_sequencing (fun _ _ => none) (fun _ _ => some "svc-boom")
      "ns1" "s1").2 rfl "svc-boom" rfl⟩

/-- C3: the Service selector equals the Deployment's label map for the same
spec, and that same map is the Deployment's `selector.matchLabels` and the
pod-template labels — all four are `mergeLabels spec.Labels`. -/
theorem c3_selector_matches_labels (spec : MCPServerSpec) :
    (createService spec).spec.selector = (createDeployment spec).metadata.labels ∧
    (createDeployment spec).spec.selector.matchLabels
      = (createDeployment spec).metadata.labels ∧
    (createDeployment spec).spec.template.metadata.labels
      = (createDeployment spec).metadata.labels ∧
    (createDeployment spec).metadata.labels = mergeLabels spec.labels :=
  ⟨rfl, rfl, rfl, rfl⟩

/-- C4: a spec with n secret mounts yields exactly n volumes and, in the single
container, exactly n volume mounts, paired by position: the i-th volume is
`secret-<i>` backed by the i-th secret name, the i-th mount is read-only at the
i-th mount path bound to `secret-<i>`; order preserved, no deduplication. -/
theorem c4_secret_mount_pairing (spec : MCPServerSpec) :
    (createDeployment spec).spec.template.spec.volumes.length
      = spec.secretMounts.length ∧
    (createDeployment spec).spec.template.spec.containers.length = 1 ∧
    (∀ c ∈ (createDeployment spec).spec.template.spec.containers,
      c.volumeMounts.length = spec.secretMounts.length) ∧
    (∀ i : Nat, ∀ sm : SecretMount, spec.secretMounts[i]? = some sm →
      (createDeployment spec).spec.template.spec.volumes[i]?
        = some { name := "secret-" ++ toString i,
                 volumeSource := { secret := some { secretName := sm.secretName } } } ∧
      ∀ c ∈ (createDeployment spec).spec.template.spec.containers,
        c.volumeMounts[i]?
          = some { name := "secret-" ++ toString i, mountPath := sm.mountPath,
                   readOnly := true }) := by
  refine ⟨?_, rfl, ?_, ?_⟩
  · show (spec.secretMounts.enum.map _).length = spec.secretMounts.length
    rw [List.length_map, List.enum_length]
  · intro c hc
    rw [List.mem_singleton.mp hc]
    show (spec.secretMounts.enum.map _).length = spec.secretMounts.length
    rw [List.length_map, List.enum_length]
  · intro i sm hi
    have he : spec.secretMounts.enum[i]? = some (i, sm) := by
      rw [List.getElem?_enum, hi]
      rfl
    constructor
    · show (spec.secretMounts.enum.map _)[i]? = _
      rw [List.getElem?_map, he]
      rfl
    · intro c hc
      rw [List.mem_singleton.mp hc]
      show (spec.secretMounts.enum.map _)[i]? = _
      rw [List.getElem?_map, he]
      rfl

theorem c4_secret_mount_pairing_witness :
    (createDeployment specA).spec.template.spec.volumes[0]?
      = some { name := "secret-" ++ toString 0,
               volumeSource := { secret := some { secretName := "sec1" } } } :=
  ((c4_secret_mount_pairing specA).2.2.2 0 { secretName := "sec1", mountPath := "/a" }
    rfl).1

/-- C5: in the projection `ListMCPServers` applies to each listed Deployment,
`Available` is true exactly when the observed available-replica count is
positive; at count zero the service lookup is not attempted and `Endpoint` is
empty no matter what the lookup would return. -/
theorem c5_availability_projection (d : Deployment)
    (g : String → Except String Service) :
    ((projectStatus g d).1.available = true ↔ 0 < d.status.availableReplicas) ∧
    (d.status.availableReplicas = 0 →
      (projectStatus g d).2 = false ∧ (projectStatus g d).1.endpoint = "") := by
  constructor
  · simp [projectStatus]
  · intro h0
    simp [projectStatus, h0]

theorem c5_availability_projection_witness :
    (projectStatus (fun _ => .ok svcA) depZero).2 = false ∧
    (projectStatus (fun _ => .ok svcA) depZero).1.endpoint = "" :=
  (c5_availability_projection depZero (fun _ => .ok svcA)).2 rfl

/-- C6: for an available Deployment whose same-named service lookup returns a
service with at least one port, `Endpoint` is `<service-name>:<first port>`;
a failed lookup leaves `Endpoint` empty; and `ListMCPServers` fails only when
the upstream filtered list fails, never because of endpoint enrichment. -/
theorem c6_endpoint_enrichment (d : Deployment)
    (g : String → Except String Service) :
    (∀ svc p ps, 0 < d.status.availableReplicas → g d.metadata.name = .ok svc →
      svc.spec.ports = p :: ps →
      (projectStatus g d).1.endpoint
        = svc.metadata.name ++ ":" ++ toString p.port) ∧
    (∀ e, g d.metadata.name = .error e → (projectStatus g d).1.endpoint = "") ∧
    (∀ ds, ∃ res, ListMCPServers (.ok ds) g = .ok res) ∧
    (∀ e, ListMCPServers (.error e) g
      = .error ("failed to list deployments: " ++ e)) := by
  refine ⟨?_, ?_, ?_, ?_⟩
  · intro svc p ps ha hg hports
    simp [projectStatus, ha, hg, hports]
  · intro e hg
    by_cases ha : 0 < d.status.availableReplicas
    · simp [projectStatus, ha, hg]
    · simp [projectStatus, ha]
  · intro ds
    exact ⟨_, rfl⟩
  · intro e
    rfl

theorem c6_endpoint_enrichment_witness :
    (projectStatus (fun _ => .ok svcA) depOne).1.endpoint = "svc-a:9000" := by
  rw [(c6_endpoint_enrichment depOne (fun _ => .ok svcA)).1 svcA
    { name := "mcp", port := 9000, targetPort := 9000, protocol := "TCP" } []
    (by decide) rfl rfl]
  rfl

/-- C7: the wizard's port step turns empty input into 8080, and a spec with
port 8080 yields a workload manifest whose container port is 8080 and a
network manifest whose port and target port are both 8080. -/
theorem c7_default_port (spec : MCPServerSpec) (h : spec.port = 8080) :
    wizardPort "" = some 8080 ∧
    (createDeployment spec).spec.template.spec.containers.map
      (fun c => c.ports.map (fun q => q.containerPort)) = [[8080]] ∧
    (createService spec).spec.ports.map (fun q => (q.port, q.targetPort))
      = [(8080, 8080)] := by
  refine ⟨rfl, ?_, ?_⟩
  · simp [createDeployment, h]
  · simp [createService, h]

theorem c7_default_port_witness :
    wizardPort "" = some 8080 ∧
    (createDeployment specB).spec.template.spec.containers.map
      (fun c => c.ports.map (fun q => q.containerPort)) = [[8080]] ∧
    (createService specB).spec.ports.map (fun q => (q.port, q.targetPort))
      = [(8080, 8080)] :=
  c7_default_port specB rfl

/-- C8: the projected status copies name, namespace, labels and annotations
verbatim; the image is the first container's image, or empty (without error)
when there is no container; and the conditions are formatted, in the platform's
order, as `<type>: <status> - <message>`. -/
theorem c8_status_projection_fields (d : Deployment)
    (g : String → Except String Service) :
    (projectStatus g d).1.name = d.metadata.name ∧
    (projectStatus g d).1.nspace = d.metadata.nspace ∧
    (projectStatus g d).1.labels = d.metadata.labels ∧
    (projectStatus g d).1.annotations = d.metadata.annotations ∧
    (∀ c cs, d.spec.template.spec.containers = c :: cs →
      (projectStatus g d).1.image = c.image) ∧
    (d.spec.template.spec.containers = [] → (projectStatus g d).1.image = "") ∧
    (projectStatus g d).1.conditions
      = d.status.conditions.map (fun c =>
          c.type ++ ": " ++ c.status ++ " - " ++ c.message) ∧
    (projectStatus g d).1.conditions.length = d.status.conditions.length := by
  refine ⟨rfl, rfl, rfl, rfl, ?_, ?_, rfl, ?_⟩
  · intro c cs hc
    simp [projectStatus, hc]
  · intro hc
    simp [projectStatus, hc]
  · show (d.status.conditions.map _).length = d.status.conditions.length
    rw [List.length_map]

theorem c8_status_projection_fields_witness :
    (projectStatus (fun _ => .ok svcA) depOne).1.image = ctrA.image ∧
    (projectStatus (fun _ => .ok svcA) depOne).1.conditions
      = ["Available: True - ok"] :=
  ⟨(c8_status_projection_fields depOne (fun _ => .ok svcA)).2.2.2.2.1 ctrA [] rfl,
   (c8_status_projection_fields depOne (fun _ => .ok svcA)).2.2.2.2.2.2.1⟩

/-- C9: with `Resources` unset the container carries the explicit zero-valued
resource requirement object; a set `Resources` is passed through unchanged. -/
theorem c9_empty_resources (spec : MCPServerSpec) :
    (spec.resources = none →
      (createDeployment spec).spec.template.spec.containers.map
        (fun c => c.resources) = [{ limits := [], requests := [] }]) ∧
    (∀ r, spec.resources = some r →
      (createDeployment spec).spec.template.spec.containers.map
        (fun c => c.resources) = [r]) ∧
    getResources none = { limits := [], requests := [] } := by
  refine ⟨?_, ?_, rfl⟩
  · intro h
    simp [createDeployment, getResources, h]
  · intro r h
    simp [createDeployment, getResources, h]

theorem c9_empty_resources_witness :
    (createDeployment specA).spec.template.spec.containers.map
      (fun c => c.resources) = [{ limits := [], requests := [] }] :=
  (c9_empty_resources specA).1 rfl

/-- C10: `mergeLabels` only writes into a freshly allocated map, so building
the manifests leaves the caller's `spec.Labels` map untouched: in the heap
model the fresh reference differs from the caller's, every pre-existing map is
unchanged afterwards (so `spec.Labels` does not gain the
`mcp.opendatahub.io/mcp-server` key), and the fresh map holds exactly
`mergeLabels` of the caller's entries.  All other spec fields are only read by
`createDeployment`/`createService`, which are pure. -/
theorem c10_no_spec_mutation (h : GoMapHeap) (userRef : MapRef)
    (hr : userRef < h.cells.length) :
    (mergeLabelsH h userRef).2 ≠ userRef ∧
    readMap (mergeLabelsH h userRef).1 userRef = readMap h userRef ∧
    (∀ r2, r2 < h.cells.length →
      readMap (mergeLabelsH h userRef).1 r2 = readMap h r2) ∧
    mapGet (readMap (mergeLabelsH h userRef).1 userRef) MCPServerLabel
      = mapGet (readMap h userRef) MCPServerLabel ∧
    readMap (mergeLabelsH h userRef).1 (mergeLabelsH h userRef).2
      = mergeLabels (readMap h userRef) := by
  obtain ⟨h1, _, h3, h4⟩ := mergeLabelsH_spec h userRef
  refine ⟨?_, h3 userRef hr, h3, ?_, h4⟩
  · rw [h1]
    exact (Nat.ne_of_lt hr).symm
  · rw [h3 userRef hr]

theorem c10_no_spec_mutation_witness :
    readMap (mergeLabelsH { cells := [[("app", "x")]] } 0).1 0 = [("app", "x")] ∧
    readMap (mergeLabelsH { cells := [[("app", "x")]] } 0).1
        (mergeLabelsH { cells := [[("app", "x")]] } 0).2
      = mergeLabels [("app", "x")] :=
  ⟨(c10_no_spec_mutation { cells := [[("app", "x")]] } 0 (by decide)).2.1,
   (c10_no_spec_mutation { cells := [[("app", "x")]] } 0 (by decide)).2.2.2.2⟩

end MCPDeploy
